import Mathlib

-- Shallow embedding of the WOOP timesheet application (src/app.py).
-- Dates are modelled as proleptic-Gregorian day numbers with day 0 =
-- 0001-01-01, a Monday; this matches Python's date.toordinal() minus 1,
-- so weekday d = d % 7 with Monday = 0 exactly as date.weekday().
-- Timestamps (the DateTime columns modified / created) are modelled as
-- seconds counted from day 0 midnight; the .date() projection of a
-- timestamp is division by 86400.

namespace WOOP

-- Python datetime.date.weekday(): Monday = 0 .. Sunday = 6.
def weekday (d : ℕ) : ℕ := d % 7

-- Gregorian leap-year test (datetime's calendar).
def isLeap (y : ℕ) : Bool := (y % 4 == 0 && y % 100 != 0) || y % 400 == 0

-- Cumulative day counts before month m in a non-leap year.
def monthDaysBefore (m : ℕ) : ℕ :=
  [0, 31, 59, 90, 120, 151, 181, 212, 243, 273, 304, 334].getD (m - 1) 0

def daysBeforeMonth (y m : ℕ) : ℕ :=
  monthDaysBefore m + (if 2 < m && isLeap y then 1 else 0)

-- Day number of the Gregorian date y-m-d (Python toordinal() - 1).
def toDayNum (y m d : ℕ) : ℕ :=
  365 * (y - 1) + (y - 1) / 4 - (y - 1) / 100 + (y - 1) / 400 + daysBeforeMonth y m + (d - 1)

-- A calendar date as the program's datetime.date exposes it (.year etc.).
structure YMD where
  y : ℕ
  m : ℕ
  d : ℕ

def YMD.toDay (t : YMD) : ℕ := toDayNum t.y t.m t.d

-- get_next_monday (app.py:186-195), with `today` passed explicitly.
-- The source keeps a dead re-adjustment branch; it is retained here.
def get_next_monday (today : ℕ) : ℕ :=
  let days_until_monday := (7 - weekday today) % 7
  let days_until_monday :=
    if days_until_monday = 0 ∧ weekday today ≠ 0 then 7 else days_until_monday
  today + days_until_monday

-- The two entry kinds; the source dispatches on the request string
-- ('forecast' selects ForecastEntry, anything else CurrentEntry).
inductive EntryType
  | forecast
  | actual
deriving DecidableEq

-- The four activity-map colors returned by get_date_status.
inductive Color
  | green
  | red
  | blue
  | gray
deriving DecidableEq

-- get_date_status (app.py:254-284), with `today` passed explicitly and the
-- date string already parsed to a day number.  The redundant
-- `elif date_obj < today: gray / else: gray` branch of the source is kept.
def get_date_status (date_obj : ℕ) (entry_type : EntryType) (today : ℕ)
    (has_entry : Bool) : Color :=
  if has_entry then Color.green
  else
    match entry_type with
    | EntryType.forecast =>
        let next_monday := get_next_monday today
        if date_obj = next_monday then Color.blue
        else if date_obj < today then Color.gray
        else Color.gray
    | EntryType.actual =>
        if date_obj > today then Color.gray else Color.red

-- An Entry row as stored by the ForecastEntry / CurrentEntry tables
-- (app.py:134-165).  The two tables have identical schemas and the kind is
-- determined by the table, so it is not a field here.  survey_date is the
-- leading date token of the survey_id string "YYYY-MM-DD (<Kind>)"; the
-- date formats injectively and survey_id.split(' ')[0] recovers it, so the
-- string key is modelled by the date itself.
structure Entry where
  survey_date : ℕ
  team_member : String
  assignment : String
  days_allocated : ℚ
  notes : Option String
  modified : ℕ
deriving DecidableEq

-- Python str.strip(): drop whitespace from both ends.  Written directly on
-- the character list so that it evaluates inside the kernel.
def pyStrip (s : String) : String :=
  ⟨((s.data.dropWhile Char.isWhitespace).reverse.dropWhile Char.isWhitespace).reverse⟩

-- Python str.lower() for the ASCII identities this system handles.
def pyLower (s : String) : String :=
  ⟨s.data.map Char.toLower⟩

-- One row of a /submit request body (app.py:811-814).
structure Row where
  project : String
  days : Option ℚ
  notes : String
deriving DecidableEq

-- Row validation and entry construction inside submit (app.py:811-824):
-- rows whose stripped project is empty or whose days is missing or not
-- strictly positive are dropped; notes are stripped and stored as NULL when
-- empty; modified defaults to the current timestamp.
def mkEntry (user : String) (key : ℕ) (now : ℕ) (row : Row) : Option Entry :=
  let project := pyStrip row.project
  let notes := pyStrip row.notes
  match row.days with
  | none => none
  | some d =>
      if project ≠ "" ∧ 0 < d then
        some { survey_date := key, team_member := user, assignment := project,
               days_allocated := d,
               notes := if notes ≠ "" then some notes else none,
               modified := now }
      else none

-- The delete-then-insert replace of a week bucket (app.py:803-826).  The
-- delete filters by exact team_member and survey_id equality.
def replaceBucket (store : List Entry) (user : String) (key : ℕ)
    (rows : List Row) (now : ℕ) : List Entry :=
  store.filter (fun e => !(e.team_member == user && e.survey_date == key))
    ++ rows.filterMap (mkEntry user key now)

-- The rows the store holds for one (user, week) bucket of one table.
def bucketOf (store : List Entry) (user : String) (key : ℕ) : List Entry :=
  store.filter (fun e => e.team_member == user && e.survey_date == key)

inductive SubmitOutcome
  | ok
  | errExpired
  | errFuture
deriving DecidableEq

-- The /submit route from validation onward (app.py:784-826), with the date
-- already parsed, `today` and the write timestamp passed explicitly, and
-- the pair of stores threaded as state.  On rejection the stores are
-- returned unchanged and nothing is written.
def submit (user : String) (today sel : ℕ) (entry_type : EntryType)
    (rows : List Row) (fS cS : List Entry) (now : ℕ) :
    SubmitOutcome × List Entry × List Entry :=
  match entry_type with
  | EntryType.forecast =>
      if sel < today ∧ sel ≠ get_next_monday today then
        (SubmitOutcome.errExpired, fS, cS)
      else (SubmitOutcome.ok, replaceBucket fS user sel rows now, cS)
  | EntryType.actual =>
      if sel > today then (SubmitOutcome.errFuture, fS, cS)
      else (SubmitOutcome.ok, fS, replaceBucket cS user sel rows now)

-- Which of the two stores a submission of the given kind writes to.
def storePicked (k : EntryType) (p : List Entry × List Entry) : List Entry :=
  match k with
  | EntryType.forecast => p.1
  | EntryType.actual => p.2

-- The while-loop of get_fridays_range (app.py:243-249): collect a date every
-- 7 days while it does not pass year_end.  Fuel-based recursion; 60 steps
-- cover any calendar year (at most 53 anchors).
def weeklyUpTo : ℕ → ℕ → ℕ → List ℕ
  | 0, _, _ => []
  | fuel + 1, cur, last => if cur ≤ last then cur :: weeklyUpTo fuel (cur + 7) last else []

-- get_fridays_range (app.py:231-251).  The source accepts weeks_back and
-- weeks_forward parameters and ignores both, always producing every Friday
-- of today's calendar year; the unused parameters are kept to mirror that.
-- Python's (4 - weekday) % 7 is a floored mod; on 0..6 it equals
-- (4 + 7 - weekday) % 7.
def get_fridays_range (weeks_back weeks_forward : ℕ) (today : YMD) : List ℕ :=
  let year_start := toDayNum today.y 1 1
  let days_until_friday := (4 + 7 - weekday year_start) % 7
  let first_friday :=
    if weekday year_start = 4 then year_start else year_start + days_until_friday
  let year_end := toDayNum today.y 12 31
  weeklyUpTo 60 first_friday year_end

inductive ItemStatus
  | missing
  | openForInput
deriving DecidableEq

-- One outstanding item (app.py:625-656).  The label fields are strftime
-- renderings of the dates below and are omitted as derived text.
structure OutItem where
  date : ℕ
  week_commencing : ℕ
  item_type : EntryType
  status : ItemStatus
  priority : ℕ
deriving DecidableEq

def itemKeyLe (a b : OutItem) : Bool :=
  a.priority < b.priority || (a.priority == b.priority && a.date ≤ b.date)

-- Stable sort by (priority, date), modelling Python's stable list.sort
-- with key (priority, date) (app.py:659).
def insertItem (x : OutItem) : List OutItem → List OutItem
  | [] => [x]
  | y :: ys => if itemKeyLe x y then x :: y :: ys else y :: insertItem x ys

def sortItems : List OutItem → List OutItem
  | [] => []
  | x :: xs => insertItem x (sortItems xs)

-- get_outstanding_items (app.py:592-665), with `today` passed explicitly
-- and the two entry stores as state.  The entry queries filter by exact
-- team_member equality, as filter_by does.
def get_outstanding_items (today : YMD) (user : String)
    (currentStore forecastStore : List Entry) : List OutItem :=
  let t := today.toDay
  let current_dates := (currentStore.filter (fun e => e.team_member == user)).map
    (fun e => e.survey_date)
  let items := (get_fridays_range 8 0 today).filterMap (fun friday =>
    if friday ≤ t && !(current_dates.contains friday) then
      some { date := friday, week_commencing := friday - 4,
             item_type := EntryType.actual, status := ItemStatus.missing, priority := 1 }
    else none)
  let next_monday := get_next_monday t
  let forecast_dates := (forecastStore.filter (fun e => e.team_member == user)).map
    (fun e => e.survey_date)
  let items :=
    if !(forecast_dates.contains next_monday) then
      items ++ [{ date := next_monday, week_commencing := next_monday,
                  item_type := EntryType.forecast, status := ItemStatus.openForInput,
                  priority := 2 }]
    else items
  sortItems items

-- A Nudge row (app.py:168-179).
structure Nudge where
  id : ℕ
  from_email : String
  from_name : String
  to_email : String
  message : String
  created : ℕ
  dismissed : Bool
deriving DecidableEq

inductive DismissResult
  | badRequest
  | notFound
  | ok
deriving DecidableEq

-- Nudge.query.filter_by(id=.., to_email=..).first() followed by setting
-- dismissed = True on the row found: mark the first matching nudge.
def dismissFirst (nid : ℕ) (low : String) : List Nudge → Option (List Nudge)
  | [] => none
  | n :: ns =>
      if n.id == nid && n.to_email == low then
        some ({ n with dismissed := true } :: ns)
      else (dismissFirst nid low ns).map (fun rest => n :: rest)

-- dismiss_nudge (app.py:921-942), with the caller identity resolved and the
-- nudge store as state.  Python's `if not nudge_id` is true for a missing
-- id and for the integer 0, both answered with HTTP 400; a lookup miss is
-- answered with HTTP 404 and no store mutation.
def dismiss_nudge (user : String) (nudge_id : Option ℕ) (store : List Nudge) :
    DismissResult × List Nudge :=
  match nudge_id with
  | none => (DismissResult.badRequest, store)
  | some nid =>
      if nid = 0 then (DismissResult.badRequest, store)
      else
        match dismissFirst nid (pyLower user) store with
        | none => (DismissResult.notFound, store)
        | some store2 => (DismissResult.ok, store2)

-- The has-submission week-key index behind the activity map
-- (app.py:480-497): entries fetched with filter_by(team_member=user_email),
-- an exact string comparison, reduced to the set of leading date tokens,
-- then queried by membership.
def has_submission (user : String) (store : List Entry) (d : ℕ) : Bool :=
  ((store.filter (fun e => e.team_member == user)).map (fun e => e.survey_date)).contains d

-- The .date() projection of a modelled timestamp.
def tsDate (ts : ℕ) : ℕ := ts / 86400

-- Round-half-to-even division of naturals: the nearest integer to a / b,
-- an exact half going to the even neighbour.  q and r are the quotient and
-- remainder, and the fractional part r / b is compared with 1/2 via 2r
-- against b.
def divRoundHalfEven (a b : ℕ) : ℕ :=
  let q := a / b
  let r := a % b
  if 2 * r < b then q
  else if b < 2 * r then q + 1
  else if q % 2 = 0 then q else q + 1

-- Floor of log2, by structural recursion on fuel so that it evaluates
-- inside the kernel; 128 halving steps are exact for every number below
-- 2^128, far beyond anything the program computes.
def log2Fuel : ℕ → ℕ → ℕ
  | 0, _ => 0
  | fuel + 1, n => if 2 ≤ n then log2Fuel fuel (n / 2) + 1 else 0

-- Floor of log2 of the positive rational a / b.  With p = floor log2 a and
-- s = floor log2 b the true value is p - s or p - s - 1; one comparison
-- decides which.
def floorLog2 (a b : ℕ) : ℤ :=
  let e0 : ℤ := (log2Fuel 128 a : ℤ) - (log2Fuel 128 b : ℤ)
  if e0 < 0 then
    if a * 2 ^ (-e0).toNat < b then e0 - 1 else e0
  else
    if a < b * 2 ^ e0.toNat then e0 - 1 else e0

-- IEEE-754 binary64 value of the positive rational a / b as a significand /
-- scale pair (m, c) with value m * 2^c and m in [2^52, 2^53): the quotient
-- is rounded to 53 significant bits, to nearest, ties to even — exactly the
-- correctly-rounded double division the hardware performs.  (The normal
-- range suffices: every value this program divides is far from the
-- subnormal and overflow thresholds.)
def fl53 (a b : ℕ) : ℕ × ℤ :=
  let e := floorLog2 a b
  let m :=
    if e ≤ 52 then divRoundHalfEven (a * 2 ^ (52 - e).toNat) b
    else divRoundHalfEven a (b * 2 ^ (e - 52).toNat)
  if m = 2 ^ 53 then (2 ^ 52, e - 51) else (m, e - 52)

-- Multiply a binary64 value (m, c) by 100 (exactly representable) with
-- binary64 rounding of the product back to 53 significant bits.
def flMul100 (m : ℕ) (c : ℤ) : ℕ × ℤ :=
  let M := m * 100
  let t := log2Fuel 128 M
  let m2 := divRoundHalfEven M (2 ^ (t - 52))
  if m2 = 2 ^ 53 then (2 ^ 52, c + (t : ℤ) - 51) else (m2, c + (t : ℤ) - 52)

-- Python round() applied to the nonnegative binary64 value (m, c):
-- banker's rounding of the exact value of the double to an integer.
def flRound (m : ℕ) (c : ℤ) : ℕ :=
  if 0 ≤ c then m * 2 ^ c.toNat
  else divRoundHalfEven m (2 ^ (-c).toNat)

-- Python round((a / b) * 100) exactly as the source computes it
-- (app.py:1074): the int-by-int true division a / b is rounded to the
-- nearest binary64 double, the product with 100.0 is rounded to a double
-- again, and round() applies banker's rounding to that double's exact
-- value.  a = 0 gives 0.0 at every step; b = 0 would raise in Python and
-- is unreachable behind the max_points == 0 guard.
def pyRoundFloatPct (a b : ℕ) : ℕ :=
  if a = 0 ∨ b = 0 then 0
  else
    let x := fl53 a b
    let y := flMul100 x.1 x.2
    flRound y.1 y.2

-- round(total / max * 100) as claim C3's reference formula reads it:
-- banker's rounding of the exact rational 100 * a / b.  This is the
-- spec-side reading; the source's float evaluation (pyRoundFloatPct)
-- differs from it where the rounded double falls on the other side of a
-- rounding boundary.
def specRoundPct (a b : ℕ) : ℕ :=
  divRoundHalfEven (100 * a) b

-- The walk-back loops of calculate_member_score (app.py:963-977): decrement
-- from today until the weekday hits the target.  Fuel-based; seven steps
-- always suffice for a real date.
def lastWeekdayFuel (target : ℕ) : ℕ → ℕ → ℕ
  | 0, d => d
  | fuel + 1, d => if weekday d = target then d else lastWeekdayFuel target fuel (d - 1)

-- The last-8-anchors lists of calculate_member_score (app.py:962-983):
-- step back week by week from the most recent target weekday, keeping the
-- anchors that do not exceed today.
def recentAnchors (target today : ℕ) : List ℕ :=
  let last := lastWeekdayFuel target 7 today
  (List.range 8).filterMap (fun i =>
    if last - 7 * i ≤ today then some (last - 7 * i) else none)

-- The submissions dict of calculate_member_score (app.py:998-1009)
-- restricted to one key: the dict maps each date key to the greatest
-- modified timestamp among the entries bearing that key (the strict
-- comparison keeps the first of tied timestamps, whose value is the same),
-- so its content at a key is this fold over the entries with that key.
def bucketLatest (entries : List Entry) (key : ℕ) : Option ℕ :=
  (entries.filter (fun e => e.survey_date == key)).foldl
    (fun acc e =>
      match acc with
      | none => some e.modified
      | some m => if e.modified > m then some e.modified else some m)
    none

structure ScoreResult where
  score : ℕ
  nudges : ℕ
  weeks_completed : ℕ
  weeks_total : ℕ
deriving DecidableEq

-- calculate_member_score (app.py:945-1083), with `today` passed explicitly
-- and the stores as state.  Entry matching lowercases both sides; the nudge
-- query compares to_email with the lowercased member and keeps nudges
-- created at or after midnight of today - 8 weeks.  Python's
-- max(0, total - penalty) on nonnegative ints is ℕ subtraction.
def calculate_member_score (member : String) (today : ℕ)
    (forecastStore currentStore : List Entry) (nudges : List Nudge) : ScoreResult :=
  let recent_mondays := recentAnchors 0 today
  let recent_fridays := recentAnchors 4 today
  let forecast_entries := forecastStore.filter
    (fun e => pyLower e.team_member == pyLower member)
  let actual_entries := currentStore.filter
    (fun e => pyLower e.team_member == pyLower member)
  let slotPoints := fun (latest : Option ℕ) (anchor : ℕ) =>
    match latest with
    | none => 0
    | some ts => if tsDate ts ≤ anchor + 1 then 10 else 5
  let total_points : ℕ :=
    (recent_mondays.map (fun a => slotPoints (bucketLatest forecast_entries a) a)).sum
      + (recent_fridays.map (fun a => slotPoints (bucketLatest actual_entries a) a)).sum
  let max_points : ℕ := 10 * recent_mondays.length + 10 * recent_fridays.length
  let eight_weeks_ago := today - 56
  let nudge_count := (nudges.filter
    (fun n => n.to_email == pyLower member && 86400 * eight_weeks_ago ≤ n.created)).length
  let total_points := total_points - 2 * nudge_count
  if max_points = 0 then
    { score := 100, nudges := nudge_count, weeks_completed := 0, weeks_total := 0 }
  else
    let forecasts_completed :=
      (recent_mondays.filter (fun a => (bucketLatest forecast_entries a).isSome)).length
    let actuals_completed :=
      (recent_fridays.filter (fun a => (bucketLatest actual_entries a).isSome)).length
    { score := min 100 (max 0 (pyRoundFloatPct total_points max_points))
      nudges := nudge_count
      weeks_completed := forecasts_completed + actuals_completed
      weeks_total := recent_mondays.length + recent_fridays.length }

-- Latest write timestamp of a member's week bucket, as the spec words it:
-- the maximum modified among the member's (case-insensitively matched)
-- entries with that week key.
def latestWrite (store : List Entry) (member : String) (key : ℕ) : Option ℕ :=
  ((store.filter (fun e => e.survey_date == key
      && pyLower e.team_member == pyLower member)).map (fun e => e.modified)).max?

-- The reference compliance formula exactly as claim C3 states it: 16
-- slots, the 8 most recent Mondays and 8 most recent Fridays at or before
-- today (day 0 is a Monday, so today - today % 7 is the most recent Monday
-- and today - (today % 7 + 3) % 7 the most recent Friday); a slot scores 10
-- when an entry exists and its latest write's date is at most anchor + 1
-- day, 5 when it exists but is later, 0 when missing;
-- totalPoints = max(0, sum - 2 per nudge within the last 8 weeks);
-- score = clamp(round(totalPoints / maxPoints * 100), 0, 100), with round
-- taken over the exact rational.
def spec_score_exact (member : String) (today : ℕ)
    (forecastStore currentStore : List Entry) (nudges : List Nudge) : ℕ :=
  let mondaySlots := (List.range 8).map (fun i => (today - today % 7) - 7 * i)
  let fridaySlots := (List.range 8).map (fun i => (today - (today % 7 + 3) % 7) - 7 * i)
  let points := fun (latest : Option ℕ) (anchor : ℕ) =>
    match latest with
    | none => 0
    | some ts => if tsDate ts ≤ anchor + 1 then 10 else 5
  let slotSum : ℕ :=
    (mondaySlots.map (fun a => points (latestWrite forecastStore member a) a)).sum
      + (fridaySlots.map (fun a => points (latestWrite currentStore member a) a)).sum
  let maxPoints : ℕ := 10 * (mondaySlots.length + fridaySlots.length)
  let nudgePenalty : ℕ := 2 * (nudges.filter
    (fun n => n.to_email == pyLower member && 86400 * (today - 56) ≤ n.created)).length
  let totalPoints : ℕ := slotSum - nudgePenalty
  min 100 (max 0 (specRoundPct totalPoints maxPoints))

-- The same reference formula with its rounding step evaluated the way the
-- source evaluates it — round() of the twice-rounded binary64 value of
-- (totalPoints / maxPoints) * 100 — which is the amended reading of claim
-- C3's formula.
def spec_score_float (member : String) (today : ℕ)
    (forecastStore currentStore : List Entry) (nudges : List Nudge) : ℕ :=
  let mondaySlots := (List.range 8).map (fun i => (today - today % 7) - 7 * i)
  let fridaySlots := (List.range 8).map (fun i => (today - (today % 7 + 3) % 7) - 7 * i)
  let points := fun (latest : Option ℕ) (anchor : ℕ) =>
    match latest with
    | none => 0
    | some ts => if tsDate ts ≤ anchor + 1 then 10 else 5
  let slotSum : ℕ :=
    (mondaySlots.map (fun a => points (latestWrite forecastStore member a) a)).sum
      + (fridaySlots.map (fun a => points (latestWrite currentStore member a) a)).sum
  let maxPoints : ℕ := 10 * (mondaySlots.length + fridaySlots.length)
  let nudgePenalty : ℕ := 2 * (nudges.filter
    (fun n => n.to_email == pyLower member && 86400 * (today - 56) ≤ n.created)).length
  let totalPoints : ℕ := slotSum - nudgePenalty
  min 100 (max 0 (pyRoundFloatPct totalPoints maxPoints))

-- Concrete stores for the spec's scoring scenario at today = Wednesday
-- 2024-03-13 (day 738957): 8 on-time forecasts on the Mondays 2024-01-22 ..
-- 2024-03-11 and 6 on-time actuals on the Fridays 2024-02-02 .. 2024-03-08,
-- with the 2 remaining Friday slots missing and no nudges.
def scenarioForecast : List Entry :=
  (List.range 8).map (fun i =>
    { survey_date := 738955 - 7 * i, team_member := "u@x.com", assignment := "P",
      days_allocated := 5, notes := none, modified := 86400 * (738955 - 7 * i) })

def scenarioActual : List Entry :=
  (List.range 6).map (fun i =>
    { survey_date := 738952 - 7 * i, team_member := "u@x.com", assignment := "P",
      days_allocated := 5, notes := none, modified := 86400 * (738952 - 7 * i) })

-- A reachable store where the source's float evaluation and the exact
-- rational formula disagree: at today = 2024-03-13, 8 on-time forecasts
-- plus 2 on-time actuals (slot sum 100) and 4 recent nudges (penalty 8)
-- give totalPoints = 92 of maxPoints = 160.  Python computes
-- fl(fl(92/160) * 100) = 57.49999999999999289…, which rounds to 57, while
-- round of the exact rational 57.5 rounds half-to-even to 58.
def cexActual : List Entry :=
  (List.range 2).map (fun i =>
    { survey_date := 738952 - 7 * i, team_member := "u@x.com", assignment := "P",
      days_allocated := 5, notes := none, modified := 86400 * (738952 - 7 * i) })

def cexNudges : List Nudge :=
  (List.range 4).map (fun i =>
    { id := i + 1, from_email := "m@x.com", from_name := "M", to_email := "u@x.com",
      message := "hi", created := 86400 * 738957, dismissed := false })

end WOOP

namespace WOOP

-- Helper: the upcoming Monday never lies before today.
theorem next_monday_ge (d : ℕ) : d ≤ get_next_monday d := by
  simp only [get_next_monday, weekday]
  split_ifs <;> omega

theorem next_monday_le (d : ℕ) : get_next_monday d ≤ d + 6 := by
  simp only [get_next_monday, weekday]
  split_ifs <;> omega

/-- Claim C8: for every date d, get_next_monday d lies in the closed interval
[d, d+6], is a Monday, is the unique Monday in that interval, and equals d
exactly when d itself is a Monday. -/
theorem C8_next_monday_window (d : ℕ) :
    d ≤ get_next_monday d ∧ get_next_monday d ≤ d + 6 ∧
    weekday (get_next_monday d) = 0 ∧
    (∀ e, d ≤ e → e ≤ d + 6 → weekday e = 0 → e = get_next_monday d) ∧
    (get_next_monday d = d ↔ weekday d = 0) := by
  simp only [get_next_monday, weekday]
  split_ifs with h
  · exact absurd h (by omega)
  · refine ⟨by omega, by omega, by omega, fun e he1 he2 he3 => by omega, by omega⟩

/-- Witness for C8 at the concrete Wednesday 2024-03-13 (day 738957): the
unique Monday in [today, today+6] is 2024-03-18 (day 738962). -/
theorem C8_witness : (738962 : ℕ) = get_next_monday 738957 :=
  (C8_next_monday_window 738957).2.2.2.1 738962 (by norm_num) (by norm_num) (by decide)

/-- Claim C6: the status classifier is total, follows the rule order
(has_entry gives green regardless of kind or date; otherwise a forecast
anchor is blue iff it equals get_next_monday today and gray otherwise;
otherwise an actual anchor is gray iff it is after today and red otherwise),
and always returns one of the four statuses. -/
theorem C6_status_classifier :
    (∀ (date : ℕ) (k : EntryType) (today : ℕ) (has_entry : Bool),
      get_date_status date k today has_entry =
        (if has_entry then Color.green
         else match k with
           | EntryType.forecast =>
               if date = get_next_monday today then Color.blue else Color.gray
           | EntryType.actual =>
               if date > today then Color.gray else Color.red)) ∧
    (∀ (date : ℕ) (k : EntryType) (today : ℕ) (has_entry : Bool),
      get_date_status date k today has_entry = Color.green ∨
      get_date_status date k today has_entry = Color.blue ∨
      get_date_status date k today has_entry = Color.gray ∨
      get_date_status date k today has_entry = Color.red) := by
  constructor
  · intro date k today has_entry
    cases k <;> simp only [get_date_status] <;> split_ifs <;> rfl
  · intro date k today has_entry
    cases k <;> simp only [get_date_status] <;> split_ifs <;> simp

-- Every entry produced from a submitted row carries the submitting user,
-- the selected week key, and a strictly positive days allocation.
theorem mkEntry_fields (user : String) (key now : ℕ) (row : Row) (e : Entry)
    (h : mkEntry user key now row = some e) :
    e.team_member = user ∧ e.survey_date = key ∧ 0 < e.days_allocated := by
  simp only [mkEntry] at h
  split at h
  · exact absurd h (by simp)
  · rename_i d hd
    split_ifs at h with hp hn
    · injection h with h
      subst h
      exact ⟨rfl, rfl, hp.2⟩
    · injection h with h
      subst h
      exact ⟨rfl, rfl, hp.2⟩

-- After a replace, the bucket holds exactly the validated rows.
theorem bucketOf_replaceBucket (store : List Entry) (user : String) (key : ℕ)
    (rows : List Row) (now : ℕ) :
    bucketOf (replaceBucket store user key rows now) user key
      = rows.filterMap (mkEntry user key now) := by
  unfold bucketOf replaceBucket
  rw [List.filter_append]
  have h1 : (store.filter (fun e => !(e.team_member == user && e.survey_date == key))).filter
      (fun e => e.team_member == user && e.survey_date == key) = [] := by
    rw [List.filter_eq_nil_iff]
    intro e he
    have hm := List.mem_filter.mp he
    simp only [Bool.not_eq_true'] at hm
    simp [hm.2]
  have h2 : (rows.filterMap (mkEntry user key now)).filter
      (fun e => e.team_member == user && e.survey_date == key)
      = rows.filterMap (mkEntry user key now) := by
    rw [List.filter_eq_self]
    intro e he
    obtain ⟨row, _, hmk⟩ := List.mem_filterMap.mp he
    obtain ⟨hu, hk, _⟩ := mkEntry_fields user key now row e hmk
    simp [hu, hk]
  rw [h1, h2, List.nil_append]

/-- Counterexample to claim C1 as stated: with today = Wednesday 2024-03-13
(day 738957) a forecast submission for Monday 2024-03-25 (day 738969), which
is a Monday strictly after get_next_monday today = 2024-03-18 and on or after
today, is accepted by the code, not rejected. -/
theorem C1_counterexample :
    (submit "u@x.com" 738957 738969 EntryType.forecast
        [{ project := "P", days := some 1, notes := "" }] [] [] 0).1 = SubmitOutcome.ok ∧
    738969 ≠ get_next_monday 738957 ∧ weekday 738969 = 0 ∧ 738957 ≤ 738969 := by
  decide

/-- Claim C1 (amended): a Forecast submission is rejected (error, no store
mutation) if and only if selectedDate is strictly before today; the
nextMonday equality test in the source is unreachable on the rejecting side
because get_next_monday today never precedes today, so every date on or
after today — including Mondays after the upcoming one — is accepted. -/
theorem C1_amended_forecast_validation (user : String) (today sel : ℕ)
    (rows : List Row) (fS cS : List Entry) (now : ℕ) :
    ((submit user today sel EntryType.forecast rows fS cS now).1 = SubmitOutcome.errExpired
        ↔ sel < today) ∧
    (sel < today → (submit user today sel EntryType.forecast rows fS cS now).2 = (fS, cS)) := by
  have hnm := next_monday_ge today
  by_cases h : sel < today ∧ sel ≠ get_next_monday today
  · simp only [submit, if_pos h]
    exact ⟨by simp [h.1], fun _ => by trivial⟩
  · simp only [submit, if_neg h]
    push_neg at h
    constructor
    · constructor
      · intro hfalse; exact absurd hfalse (by decide)
      · intro hlt
        have h2 := h hlt
        subst h2
        exact absurd hlt (by omega)
    · intro hlt
      have h2 := h hlt
      subst h2
      exact absurd hlt (by omega)

/-- Witness for the amended C1: a forecast for Wednesday 2024-03-06, one week
before today 2024-03-13, is rejected and both stores are left unchanged. -/
theorem C1_amended_witness :
    (submit "u@x.com" 738957 738950 EntryType.forecast [] [] [] 0).2 = ([], []) :=
  (C1_amended_forecast_validation "u@x.com" 738957 738950 [] [] [] 0).2 (by norm_num)

/-- Claim C5: an accepted submission of rows for a (user, kind, weekKey)
bucket leaves the store holding, for that bucket, exactly the entries built
from the rows with non-empty project and present, strictly positive days;
no previously stored row of the bucket survives, and every stored row has a
strictly positive days allocation. -/
theorem C5_overwrite_law (user : String) (today sel : ℕ) (k : EntryType)
    (rows : List Row) (fS cS : List Entry) (now : ℕ)
    (hok : (submit user today sel k rows fS cS now).1 = SubmitOutcome.ok) :
    bucketOf (storePicked k (submit user today sel k rows fS cS now).2) user sel
      = rows.filterMap (mkEntry user sel now) ∧
    ∀ e ∈ bucketOf (storePicked k (submit user today sel k rows fS cS now).2) user sel,
      0 < e.days_allocated := by
  have hpos : ∀ e ∈ rows.filterMap (mkEntry user sel now), 0 < e.days_allocated := by
    intro e he
    obtain ⟨row, _, hmk⟩ := List.mem_filterMap.mp he
    exact (mkEntry_fields user sel now row e hmk).2.2
  cases k with
  | forecast =>
      by_cases h : sel < today ∧ sel ≠ get_next_monday today
      · rw [show submit user today sel EntryType.forecast rows fS cS now
            = (SubmitOutcome.errExpired, fS, cS) from by simp [submit, h]] at hok
        exact absurd hok (by simp)
      · have hs : submit user today sel EntryType.forecast rows fS cS now
            = (SubmitOutcome.ok, replaceBucket fS user sel rows now, cS) := by
          simp [submit, h]
        rw [hs]
        simp only [storePicked]
        refine ⟨bucketOf_replaceBucket fS user sel rows now, ?_⟩
        rw [bucketOf_replaceBucket fS user sel rows now]
        exact hpos
  | actual =>
      by_cases h : sel > today
      · rw [show submit user today sel EntryType.actual rows fS cS now
            = (SubmitOutcome.errFuture, fS, cS) from by simp [submit, h]] at hok
        exact absurd hok (by simp)
      · have hs : submit user today sel EntryType.actual rows fS cS now
            = (SubmitOutcome.ok, fS, replaceBucket cS user sel rows now) := by
          simp [submit, h]
        rw [hs]
        simp only [storePicked]
        refine ⟨bucketOf_replaceBucket cS user sel rows now, ?_⟩
        rw [bucketOf_replaceBucket cS user sel rows now]
        exact hpos

/-- Witness for C5: resubmitting on the open Monday replaces a previously
stored bucket row with exactly the positive-days row of the new submission. -/
theorem C5_witness :
    bucketOf (storePicked EntryType.forecast
        (submit "u@x.com" 738957 738962 EntryType.forecast
          [{ project := "P", days := some 2, notes := "" },
           { project := "Q", days := some 0, notes := "" }]
          [{ survey_date := 738962, team_member := "u@x.com", assignment := "Old",
             days_allocated := 1, notes := none, modified := 3 }] [] 5).2) "u@x.com" 738962
      = [{ survey_date := 738962, team_member := "u@x.com", assignment := "P",
           days_allocated := 2, notes := none, modified := 5 }] := by
  rw [(C5_overwrite_law "u@x.com" 738957 738962 EntryType.forecast
        [{ project := "P", days := some 2, notes := "" },
         { project := "Q", days := some 0, notes := "" }]
        [{ survey_date := 738962, team_member := "u@x.com", assignment := "Old",
           days_allocated := 1, notes := none, modified := 3 }] [] 5 (by decide)).1]
  decide

/-- Claim C9: the submit route never checks the weekday of the selected
date — any forecast date on or after today is accepted and any actual date
on or before today is accepted, and in both cases the validated rows are
persisted under that date's bucket. -/
theorem C9_no_weekday_validation (user : String) (today sel : ℕ)
    (rows : List Row) (fS cS : List Entry) (now : ℕ) :
    (today ≤ sel →
      (submit user today sel EntryType.forecast rows fS cS now).1 = SubmitOutcome.ok ∧
      bucketOf (submit user today sel EntryType.forecast rows fS cS now).2.1 user sel
        = rows.filterMap (mkEntry user sel now)) ∧
    (sel ≤ today →
      (submit user today sel EntryType.actual rows fS cS now).1 = SubmitOutcome.ok ∧
      bucketOf (submit user today sel EntryType.actual rows fS cS now).2.2 user sel
        = rows.filterMap (mkEntry user sel now)) := by
  constructor
  · intro h
    have hc : ¬(sel < today ∧ sel ≠ get_next_monday today) := by omega
    simp only [submit, if_neg hc]
    exact ⟨by trivial, bucketOf_replaceBucket fS user sel rows now⟩
  · intro h
    have hc : ¬(sel > today) := by omega
    simp only [submit, if_neg hc]
    exact ⟨by trivial, bucketOf_replaceBucket cS user sel rows now⟩

/-- Witness for C9: a forecast for Thursday 2024-03-14 (a mid-week,
non-Monday date on or after today 2024-03-13) and an actual for Wednesday
2024-03-06 (a non-Friday date before today) are both accepted. -/
theorem C9_witness :
    (submit "u@x.com" 738957 738958 EntryType.forecast [] [] [] 0).1 = SubmitOutcome.ok ∧
    (submit "u@x.com" 738957 738950 EntryType.actual [] [] [] 0).1 = SubmitOutcome.ok :=
  ⟨((C9_no_weekday_validation "u@x.com" 738957 738958 [] [] [] 0).1 (by norm_num)).1,
   ((C9_no_weekday_validation "u@x.com" 738957 738950 [] [] [] 0).2 (by norm_num)).1⟩

/-- Claim C2 fails on the code (code bug): at today = Monday 2024-12-30 with
empty entry stores the resolver emits one Missing Actual item for every
Friday of 2024 on or before today — 52 of them, far more than the stated
bound of 8 — because get_fridays_range ignores the weeks_back = 8,
weeks_forward = 0 arguments its caller passes and always returns every
Friday of the calendar year. -/
theorem C2_lookback_bug :
    8 < ((get_outstanding_items ⟨2024, 12, 30⟩ "u@x.com" [] []).filter
        (fun it => it.item_type == EntryType.actual)).length ∧
    ((get_outstanding_items ⟨2024, 12, 30⟩ "u@x.com" [] []).filter
        (fun it => it.item_type == EntryType.actual)).length = 52 := by
  decide

-- dismissFirst finds nothing when no nudge matches.
theorem dismissFirst_none (nid : ℕ) (low : String) (store : List Nudge)
    (h : ∀ n ∈ store, ¬(n.id = nid ∧ n.to_email = low)) :
    dismissFirst nid low store = none := by
  induction store with
  | nil => rfl
  | cons n ns ih =>
      have hn := h n (List.mem_cons_self n ns)
      have hcond : ¬(n.id == nid && n.to_email == low) = true := by
        simp only [Bool.and_eq_true, beq_iff_eq]
        exact hn
      simp only [dismissFirst, if_neg hcond,
        ih (fun m hm => h m (List.mem_cons_of_mem n hm)), Option.map_none']

-- dismissFirst flips exactly the dismissed flag of the first match.
theorem dismissFirst_found (nid : ℕ) (low : String) (pre : List Nudge) (n : Nudge)
    (post : List Nudge)
    (hpre : ∀ m ∈ pre, ¬(m.id = nid ∧ m.to_email = low))
    (hid : n.id = nid) (hto : n.to_email = low) :
    dismissFirst nid low (pre ++ n :: post)
      = some (pre ++ { n with dismissed := true } :: post) := by
  induction pre with
  | nil =>
      simp only [List.nil_append, dismissFirst]
      rw [if_pos (by simp [hid, hto])]
  | cons m ms ih =>
      have hm := hpre m (List.mem_cons_self m ms)
      have hcond : ¬(m.id == nid && m.to_email == low) = true := by
        simp only [Bool.and_eq_true, beq_iff_eq]
        exact hm
      simp only [List.cons_append, dismissFirst, if_neg hcond, List.append_eq,
        ih (fun x hx => hpre x (List.mem_cons_of_mem m hx)), Option.map_some']

/-- Counterexample to claim C10 as stated: for nudge id 0 no nudge with that
id addressed to the caller exists (the store here is empty), yet the route
answers 400 (Nudge ID required, the falsy-id check) rather than the 404 the
claim promises for every id without a matching nudge. -/
theorem C10_counterexample :
    dismiss_nudge "u@x.com" (some 0) [] = (DismissResult.badRequest, []) ∧
    DismissResult.badRequest ≠ DismissResult.notFound := by
  decide

/-- Claim C10 (amended): for every caller and every nonzero nudge id, if no
stored nudge has that id and the caller's lowercased identity as recipient,
the operation returns 404 and the store is unchanged; otherwise it sets
only the dismissed flag of the first such nudge to true.  (A falsy id — 0
or missing — is answered 400 before the lookup, also without mutation.) -/
theorem C10_dismiss_nudge (user : String) (nid : ℕ) (store : List Nudge)
    (hnz : nid ≠ 0) :
    ((∀ n ∈ store, ¬(n.id = nid ∧ n.to_email = pyLower user)) →
      dismiss_nudge user (some nid) store = (DismissResult.notFound, store)) ∧
    (∀ pre n post, store = pre ++ n :: post →
      (∀ m ∈ pre, ¬(m.id = nid ∧ m.to_email = pyLower user)) →
      n.id = nid → n.to_email = pyLower user →
      dismiss_nudge user (some nid) store
        = (DismissResult.ok, pre ++ { n with dismissed := true } :: post)) := by
  constructor
  · intro h
    simp only [dismiss_nudge, if_neg hnz, dismissFirst_none nid (pyLower user) store h]
  · intro pre n post hs hpre hid hto
    subst hs
    simp only [dismiss_nudge, if_neg hnz,
      dismissFirst_found nid (pyLower user) pre n post hpre hid hto]

-- The walk-back loop lands on the most recent target weekday: with enough
-- fuel it subtracts exactly the weekday distance (d % 7 + 7 - t) % 7.
theorem lastWeekdayFuel_spec (t : ℕ) (ht : t < 7) :
    ∀ fuel d, (d % 7 + 7 - t) % 7 ≤ fuel → (d % 7 + 7 - t) % 7 ≤ d →
      lastWeekdayFuel t fuel d = d - (d % 7 + 7 - t) % 7 := by
  intro fuel
  induction fuel with
  | zero =>
      intro d h1 h2
      simp only [lastWeekdayFuel]
      omega
  | succ f ih =>
      intro d h1 h2
      simp only [lastWeekdayFuel, weekday]
      split_ifs with hw
      · omega
      · rw [ih (d - 1) (by omega) (by omega)]
        omega

-- A filterMap whose guard always holds is a map.
theorem filterMap_within (today : ℕ) (g : ℕ → ℕ) (hg : ∀ i, g i ≤ today) :
    ∀ l : List ℕ,
      l.filterMap (fun i => if g i ≤ today then some (g i) else none) = l.map g := by
  intro l
  induction l with
  | nil => rfl
  | cons a l ih => simp [hg a, ih]

theorem recentAnchors_eq (t today : ℕ) (ht : t < 7) (h : 6 ≤ today) :
    recentAnchors t today
      = (List.range 8).map (fun i => (today - (today % 7 + 7 - t) % 7) - 7 * i) := by
  unfold recentAnchors
  rw [lastWeekdayFuel_spec t ht 7 today (by omega) (by omega)]
  exact filterMap_within today _ (fun i => by omega) (List.range 8)

theorem recentMondays_eq (today : ℕ) (h : 6 ≤ today) :
    recentAnchors 0 today = (List.range 8).map (fun i => (today - today % 7) - 7 * i) := by
  rw [recentAnchors_eq 0 today (by norm_num) h,
    show (today % 7 + 7 - 0) % 7 = today % 7 from by omega]

theorem recentFridays_eq (today : ℕ) (h : 6 ≤ today) :
    recentAnchors 4 today
      = (List.range 8).map (fun i => (today - (today % 7 + 3) % 7) - 7 * i) := by
  rw [recentAnchors_eq 4 today (by norm_num) h,
    show (today % 7 + 7 - 4) % 7 = (today % 7 + 3) % 7 from by omega]

-- Folding the strict-comparison update from a seed computes the maximum.
theorem foldl_latest_entries (es : List Entry) (m : ℕ) :
    es.foldl (fun acc e =>
      match acc with
      | none => some e.modified
      | some m0 => if e.modified > m0 then some e.modified else some m0)
      (some m)
      = some (es.foldl (fun m0 e => max m0 e.modified) m) := by
  induction es generalizing m with
  | nil => rfl
  | cons e es ih =>
      simp only [List.foldl_cons]
      rw [show (if e.modified > m then some e.modified else some m)
            = some (max m e.modified) from ?_, ih]
      split_ifs with hgt
      · rw [Nat.max_eq_right hgt.le]
      · rw [Nat.max_eq_left (Nat.not_lt.mp hgt)]

-- The per-key dict content is the maximum modified over the key's entries.
theorem bucketLatest_eq_max (entries : List Entry) (key : ℕ) :
    bucketLatest entries key
      = ((entries.filter (fun e => e.survey_date == key)).map
          (fun e => e.modified)).max? := by
  unfold bucketLatest
  generalize entries.filter (fun e => e.survey_date == key) = l
  cases l with
  | nil => rfl
  | cons e es =>
      simp only [List.foldl_cons, List.map_cons]
      rw [foldl_latest_entries es e.modified,
        show (e.modified :: es.map (fun e => e.modified)).max?
          = some ((es.map (fun e => e.modified)).foldl max e.modified) from rfl,
        List.foldl_map]

-- Pre-filtering by member and then taking the key's latest write is the
-- spec's latestWrite.
theorem bucketLatest_filter_eq_latestWrite (store : List Entry) (member : String)
    (key : ℕ) :
    bucketLatest (store.filter (fun e => pyLower e.team_member == pyLower member)) key
      = latestWrite store member key := by
  rw [bucketLatest_eq_max, List.filter_filter]
  rfl

/-- Counterexample to claim C3 as stated: at the reachable store with 8
on-time forecasts, 2 on-time actuals and 4 recent nudges — totalPoints = 92
of maxPoints = 160 — the code, which evaluates round((92/160)*100) over
IEEE binary64 doubles, scores 57 (the twice-rounded float is
57.49999999999999289…), while the claim's formula, round of the exact
rational 57.5 with clamping, gives 58. -/
theorem C3_counterexample :
    (calculate_member_score "u@x.com" 738957 scenarioForecast cexActual cexNudges).score
      = 57 ∧
    spec_score_exact "u@x.com" 738957 scenarioForecast cexActual cexNudges = 58 := by
  decide

/-- Claim C3 (amended): for every user, today (at least eight weeks into the
day count, as every real date is) and entry/nudge stores, the compliance
score equals the reference formula of the spec — 10/5/0 slot points against
the one-day grace deadline, a penalty of 2 per recent nudge with a floor at
0, and clamp(round(total/max*100), 0, 100) — with the rounding step
evaluated as the source evaluates it, over IEEE binary64 doubles
(round(fl(fl(total/max) * 100))) rather than over the exact rational; in
particular the spec's concrete scenario (8 on-time forecasts, 6 on-time
actuals, 2 missing actuals, 0 nudges) scores 88, where the float value is
exactly 87.5 and float and exact rounding agree. -/
theorem C3_compliance_score_formula :
    (∀ (member : String) (today : ℕ) (fS cS : List Entry) (nudges : List Nudge),
      63 ≤ today →
      (calculate_member_score member today fS cS nudges).score
        = spec_score_float member today fS cS nudges) ∧
    (calculate_member_score "u@x.com" 738957 scenarioForecast scenarioActual []).score
      = 88 := by
  constructor
  · intro member today fS cS nudges h
    unfold calculate_member_score spec_score_float
    rw [recentMondays_eq today (by omega), recentFridays_eq today (by omega)]
    simp only [bucketLatest_filter_eq_latestWrite, List.length_map, List.length_range]
    rw [if_neg (show ¬((10 : ℕ) * 8 + 10 * 8 = 0) from by norm_num)]
  · decide

/-- Witness for the amended C3 applied at the spec's concrete scenario. -/
theorem C3_witness :
    (calculate_member_score "u@x.com" 738957 scenarioForecast scenarioActual []).score
      = spec_score_float "u@x.com" 738957 scenarioForecast scenarioActual [] :=
  C3_compliance_score_formula.1 "u@x.com" 738957 scenarioForecast scenarioActual []
    (by norm_num)

/-- Claim C4: for every today (at least eight weeks into the day count), the
scoring slots are exactly the 8 most recent Monday anchors at or before
today plus the 8 most recent Friday anchors at or before today — membership
in each list is equivalent to being a date of the right weekday in the
8-week window ending at today — the lists are duplicate-free, and there are
always exactly 16 slots, never fewer; the walk-back crosses year
boundaries, so the claim's "fewer than 16 only at the start of a year"
holds vacuously. -/
theorem C4_scoring_slots (today : ℕ) (h : 63 ≤ today) :
    (∀ m, m ∈ recentAnchors 0 today ↔ weekday m = 0 ∧ m ≤ today ∧ today < m + 56) ∧
    (∀ m, m ∈ recentAnchors 4 today ↔ weekday m = 4 ∧ m ≤ today ∧ today < m + 56) ∧
    (recentAnchors 0 today).Nodup ∧ (recentAnchors 4 today).Nodup ∧
    (recentAnchors 0 today).length + (recentAnchors 4 today).length = 16 := by
  rw [recentMondays_eq today (by omega), recentFridays_eq today (by omega)]
  refine ⟨?_, ?_, ?_, ?_, by simp⟩
  · intro m
    simp only [List.mem_map, List.mem_range, weekday]
    constructor
    · rintro ⟨i, hi, rfl⟩
      omega
    · rintro ⟨h1, h2, h3⟩
      exact ⟨(today - today % 7 - m) / 7, by omega, by omega⟩
  · intro m
    simp only [List.mem_map, List.mem_range, weekday]
    constructor
    · rintro ⟨i, hi, rfl⟩
      omega
    · rintro ⟨h1, h2, h3⟩
      exact ⟨(today - (today % 7 + 3) % 7 - m) / 7, by omega, by omega⟩
  · refine List.Nodup.map_on ?_ (List.nodup_range 8)
    intro i hi j hj hij
    simp only [List.mem_range] at hi hj
    omega
  · refine List.Nodup.map_on ?_ (List.nodup_range 8)
    intro i hi j hj hij
    simp only [List.mem_range] at hi hj
    omega

/-- Witness for C4 at today = 2024-03-13: sixteen scoring slots. -/
theorem C4_witness :
    (recentAnchors 0 738957).length + (recentAnchors 4 738957).length = 16 :=
  (C4_scoring_slots 738957 (by norm_num)).2.2.2.2

/-- Counterexample to claim C7 as stated: the activity-map / outstanding-
items index fetches entries by exact team_member equality, so the identities
"Alice@x.com" and "alice@x.com" — equal up to letter case — see different
has-submission indexes over the same store. -/
theorem C7_counterexample :
    pyLower "Alice@x.com" = pyLower "alice@x.com" ∧
    has_submission "alice@x.com"
      [{ survey_date := 738962, team_member := "alice@x.com", assignment := "P",
         days_allocated := 1, notes := none, modified := 0 }] 738962 = true ∧
    has_submission "Alice@x.com"
      [{ survey_date := 738962, team_member := "alice@x.com", assignment := "P",
         days_allocated := 1, notes := none, modified := 0 }] 738962 = false := by
  decide

/-- Claim C7 (amended): entry-to-user matching is case-insensitive only in
the compliance scorer — identities that agree after lowercasing receive
identical score results over any stores — while the activity-map /
outstanding-items has-submission index compares team_member exactly and can
differ between such identities. -/
theorem C7_scorer_case_insensitive (u1 u2 : String) (today : ℕ)
    (fS cS : List Entry) (nudges : List Nudge) (h : pyLower u1 = pyLower u2) :
    calculate_member_score u1 today fS cS nudges
      = calculate_member_score u2 today fS cS nudges := by
  unfold calculate_member_score
  rw [h]

/-- Witness for the amended C7: two casings of one identity get the same
score result. -/
theorem C7_witness :
    calculate_member_score "Alice@x.com" 738957 [] [] []
      = calculate_member_score "alice@x.com" 738957 [] [] [] :=
  C7_scorer_case_insensitive "Alice@x.com" "alice@x.com" 738957 [] [] [] (by decide)

/-- Witness for the amended C10: a mixed-case caller dismisses a nudge stored
with the lowercased recipient address, and only its dismissed flag changes. -/
theorem C10_witness :
    dismiss_nudge "U@x.com" (some 3)
        [{ id := 3, from_email := "m@x.com", from_name := "M", to_email := "u@x.com",
           message := "hi", created := 0, dismissed := false }]
      = (DismissResult.ok,
         [{ id := 3, from_email := "m@x.com", from_name := "M", to_email := "u@x.com",
            message := "hi", created := 0, dismissed := true }]) :=
  (C10_dismiss_nudge "U@x.com" 3
      [{ id := 3, from_email := "m@x.com", from_name := "M", to_email := "u@x.com",
         message := "hi", created := 0, dismissed := false }] (by norm_num)).2
    [] { id := 3, from_email := "m@x.com", from_name := "M", to_email := "u@x.com",
         message := "hi", created := 0, dismissed := false } [] rfl
    (by simp) rfl (by decide)

end WOOP
